import Mathlib

set_option synthInstance.maxSize 1024

/-
Shallow embedding of the genid segment-based id generator:
the `generator` package (mysqlGenerator, mysqlRowBasedEngine, increase)
and the `beamhandler` package (DefaultHandler.Handle).

Modelling conventions:
* Go `int64` is modelled as `Int` (the values in the claims stay far from
  the 64-bit range, so wrap-around is irrelevant to every statement below).
* Errors (`error`) are modelled as `Option Err` with `Err := String`
  (`none` = nil error), or `Except Err _` for `(value, error)` pairs in
  which exactly one side is meaningful.
* A Go runtime panic is a distinguished outcome `GoResult.panics`.
* The MySQL table is an association list `Key ↦ Row`; `db.Exec` of the
  INSERT/UPDATE statements mutates it immediately (the source issues the
  statements through the pool handle `m.generator.db`, in autocommit mode,
  not through the transaction `tx` it opened, so `tx.Commit`/`tx.Rollback`
  have no data effect; they can only produce errors).
* The error outcomes a live database can produce on one `increase` call
  (connection loss on a statement, a duplicate-key violation on the INSERT,
  an unexpected rows-affected count, commit/rollback failure) are injected
  through a `Faults` record; `Faults.noFaults` is a fault-free store.
* `time.Now().Unix()` is passed in as an explicit `now : Int` parameter.
-/

deriving instance DecidableEq for Except

namespace Genid

abbrev Err := String
abbrev Key := String

/-- One persisted counter row: the `value` and `last_mod_at` columns of the
table created by `createTableSQL` (the `id` auto-increment column carries no
information and is omitted). -/
structure Row where
  value : Int
  lastModAt : Int
  deriving DecidableEq

/-- The counter table, keyed by the unique `key` column. -/
abbrev Table := List (Key × Row)

/-- Association-list lookup (the SELECT by `key`). -/
def lookupKV {α : Type} : List (Key × α) → Key → Option α
  | [], _ => none
  | (k, a) :: t, key => if k = key then some a else lookupKV t key

/-- Association-list write: replaces the binding of `key` when present,
appends it otherwise.  Serves both for the SQL INSERT (key absent) and the
SQL UPDATE (key present), and for the Go map assignment `data[key] = ...`. -/
def setKV {α : Type} : List (Key × α) → Key → α → List (Key × α)
  | [], key, a => [(key, a)]
  | (k, a0) :: t, key, a => if k = key then (key, a) :: t else (k, a0) :: setKV t key a

/-- Outcome of running a piece of Go code: a normal result or a runtime
panic. -/
inductive GoResult (α : Type) where
  | ok (a : α)
  | panics
  deriving DecidableEq

/-- Fault injection for one `increase` call: each field is the error (or,
for the rows-affected counts, the overriding count) that the corresponding
database call returns; `none` means the call behaves normally. -/
structure Faults where
  beginErr : Option Err
  selectErr : Option Err
  insertExecErr : Option Err
  insertAffectedErr : Option Err
  insertAffectedCnt : Option Int
  updateExecErr : Option Err
  updateAffectedErr : Option Err
  updateAffectedCnt : Option Int
  commitErr : Option Err
  rollbackErr : Option Err
  deriving DecidableEq

/-- A store in which every database call succeeds. -/
def Faults.noFaults : Faults :=
  ⟨none, none, none, none, none, none, none, none, none, none⟩

/-- The error message built by `fmt.Errorf("invalid effected row count: %d", cnt)`. -/
def affectedCountErr (cnt : Int) : Err :=
  "invalid effected row count: " ++ toString cnt

/-- Error produced by the deferred function of `increase`: on a non-nil
`err` it calls `tx.Rollback()` and replaces `err` by the rollback error
when that fails; on a nil `err` it sets `err = tx.Commit()`. -/
def txOutcomeErr (f : Faults) (err : Option Err) : Option Err :=
  match err with
  | some e => some (f.rollbackErr.getD e)
  | none => f.commitErr

/-- Return point of `increase`: runs the deferred commit-or-rollback and
yields the named returns together with the table.  The transaction holds no
uncommitted writes (every statement ran on `m.generator.db` in autocommit),
so neither `Commit` nor `Rollback` touches the table. -/
def finishTx (f : Faults) (cur mx : Int) (err : Option Err) (store : Table) :
    GoResult ((Int × Int × Option Err) × Table) :=
  .ok ((cur, mx, txOutcomeErr f err), store)

/-- Embedding of `mysqlRowBasedEngine.increase(delta)`.  Mirrors the source
line by line:
* `tx, err := m.generator.db.Begin()`: if `Begin` fails the deferred
  function calls `tx.Rollback()` on a nil `*sql.Tx`, which panics.
* `err = m.generator.db.QueryRow(selectSQL, key).Scan(&cur)`: a non-nil
  non-`ErrNoRows` error returns with the zero-valued named returns.
* `ErrNoRows` path: `max += m.skip`; `res, err = db.Exec(insertSQL, ...)`;
  the very next line `cnt, err = res.RowsAffected()` overwrites `err`
  without checking it, so when the INSERT failed `res` is nil and the call
  panics; otherwise the rows-affected count is checked against 1.
* row-found path: `max = cur + delta`; `res, err := db.Exec(updateSQL, ...)`
  with its error checked, then `res.RowsAffected()` checked against 1.
Returns the `(cur, max, err)` named-return triple (meaningful partial values
even when `err` is non-nil, exactly as the Go named returns are) together
with the table contents after the call. -/
def increase (store : Table) (key : Key) (skip delta now : Int) (f : Faults) :
    GoResult ((Int × Int × Option Err) × Table) :=
  match f.beginErr with
  | some _ => .panics
  | none =>
    match f.selectErr with
    | some e => finishTx f 0 0 (some e) store
    | none =>
      match lookupKV store key with
      | none =>
        match f.insertExecErr with
        | some _ => .panics
        | none =>
          let store1 := setKV store key ⟨skip, now⟩
          match f.insertAffectedErr with
          | some e => finishTx f 0 skip (some e) store1
          | none =>
            let cnt := f.insertAffectedCnt.getD 1
            if cnt = 1 then finishTx f 0 skip none store1
            else finishTx f 0 skip (some (affectedCountErr cnt)) store1
      | some row =>
        let cur := row.value
        let mx := cur + delta
        match f.updateExecErr with
        | some e => finishTx f cur mx (some e) store
        | none =>
          let store1 := setKV store key ⟨mx, now⟩
          match f.updateAffectedErr with
          | some e => finishTx f cur mx (some e) store1
          | none =>
            let cnt := f.updateAffectedCnt.getD 1
            if cnt = 1 then finishTx f cur mx none store1
            else finishTx f cur mx (some (affectedCountErr cnt)) store1

/-- In-memory state of one `mysqlRowBasedEngine` (the SQL-string fields are
constants derived from the table name and the `generator` back pointer is
only used to reach the shared `db`, so both are omitted). -/
structure Engine where
  key : Key
  skip : Int
  max : Int
  cur : Int
  deriving DecidableEq

/-- Embedding of `mysqlRowBasedEngine.next()`: when `m.cur == m.max` it runs
`m.cur, m.max, err = m.increase(m.skip)` — note the assignment writes the
returned partial values into the fields before `err` is checked — and
returns `(0, err)` when `err` is non-nil; otherwise it increments `m.cur`
and returns it. -/
def Engine.next (e : Engine) (store : Table) (now : Int) (f : Faults) :
    GoResult ((Int × Option Err) × Engine × Table) :=
  if e.cur = e.max then
    match increase store e.key e.skip e.skip now f with
    | .panics => .panics
    | .ok ((cur1, max1, err), store1) =>
      match err with
      | some er => .ok ((0, some er), ⟨e.key, e.skip, max1, cur1⟩, store1)
      | none => .ok ((cur1 + 1, none), ⟨e.key, e.skip, max1, cur1 + 1⟩, store1)
  else
    .ok ((e.cur + 1, none), ⟨e.key, e.skip, e.max, e.cur + 1⟩, store)

/-- Embedding of `mysqlRowBasedEngine.current()`: returns `m.cur` and a nil
error. -/
def Engine.current (e : Engine) : Int × Option Err := (e.cur, none)

/-- Embedding of `newMysqlRowBasedEngine`: rejects a non-positive `skip`
before any I/O, otherwise performs the eager `increase(skip)` refill and
returns the initialized engine; on a refill error the nil engine and the
error are returned (the named return `engine` was never assigned). -/
def newMysqlRowBasedEngine (store : Table) (key : Key) (skip now : Int) (f : Faults) :
    GoResult (Except Err Engine × Table) :=
  if skip ≤ 0 then .ok (.error ("invalid skip: " ++ toString skip), store)
  else
    match increase store key skip skip now f with
    | .panics => .panics
    | .ok ((cur1, max1, err), store1) =>
      match err with
      | some e => .ok (.error e, store1)
      | none => .ok (.ok ⟨key, skip, max1, cur1⟩, store1)

/-- In-memory state of the `mysqlGenerator` registry: the active
`sourceMap` from key to engine and the configured segment size (`m.skip`);
the `db` handle, config and logger are omitted, and the `RWMutex` collapses
since the embedding is sequential. -/
structure Generator where
  sourceMap : List (Key × Engine)
  skip : Int
  deriving DecidableEq

/-- The `for _, key := range keys` loop body of `EnableKeys`: constructs a
fresh engine for each key in order, accumulating the new map `data`; the
first construction error aborts the loop and is returned.  The per-key
`Faults` function supplies the store's behaviour for each key's eager
refill. -/
def enableLoop (g : Generator) (store : Table) (keys : List Key) (now : Int)
    (f : Key → Faults) (data : List (Key × Engine)) :
    GoResult (Except Err (List (Key × Engine)) × Table) :=
  match keys with
  | [] => .ok (.ok data, store)
  | k :: ks =>
    match newMysqlRowBasedEngine store k g.skip now (f k) with
    | .panics => .panics
    | .ok (.error e, store1) => .ok (.error e, store1)
    | .ok (.ok eng, store1) => enableLoop g store1 ks now f (setKV data k eng)

/-- Embedding of `mysqlGenerator.EnableKeys(keys)`: builds the brand-new
map via `enableLoop`; on error it returns without touching `m.sourceMap`,
on success it replaces `m.sourceMap` wholesale under the write lock. -/
def Generator.enableKeys (g : Generator) (store : Table) (keys : List Key) (now : Int)
    (f : Key → Faults) : GoResult ((Generator × Option Err) × Table) :=
  match enableLoop g store keys now f [] with
  | .panics => .panics
  | .ok (.error e, store1) => .ok ((g, some e), store1)
  | .ok (.ok data, store1) => .ok ((⟨data, g.skip⟩, none), store1)

/-- The two handles a statement of `increase` could run on: the transaction
`tx` returned by `db.Begin()`, or the pool handle `m.generator.db` itself. -/
inductive DbHandle where
  | txHandle
  | dbHandle
  deriving DecidableEq

/-- The SQL statements `increase` issues. -/
inductive Stmt where
  | selectForUpdate (key : Key)
  | insertStmt (key : Key)
  | updateStmt (key : Key)
  deriving DecidableEq

/-- The sequence of SQL statements one `increase` call issues, each tagged
with the handle the source issues it on.  The source reads
`m.generator.db.QueryRow(m.selectSQL, ...)` and `m.generator.db.Exec(...)`
for all three statements — the pool handle, never the `tx` it opened — so
every emitted statement is tagged `dbHandle`.  A failed `Begin` reaches no
statement (the deferred rollback panics first). -/
def increaseStmts (store : Table) (key : Key) (f : Faults) : List (DbHandle × Stmt) :=
  match f.beginErr with
  | some _ => []
  | none =>
    match f.selectErr with
    | some _ => [(.dbHandle, .selectForUpdate key)]
    | none =>
      match lookupKV store key with
      | none => [(.dbHandle, .selectForUpdate key), (.dbHandle, .insertStmt key)]
      | some _ => [(.dbHandle, .selectForUpdate key), (.dbHandle, .updateStmt key)]

/-- Test harness: runs `n` consecutive `next()` calls on one engine with a
fault-free store, collecting the returned `(id, err)` pairs, the number of
calls that hit the refill branch (`cur == max` on entry, i.e. the calls
that touch the store), and the final engine and table. -/
def nexts (e : Engine) (store : Table) (now : Int) (n : Nat) :
    GoResult (List (Int × Option Err) × Nat × Engine × Table) :=
  match n with
  | 0 => .ok ([], 0, e, store)
  | Nat.succ m =>
    match Engine.next e store now Faults.noFaults with
    | .panics => .panics
    | .ok ((id, err), e1, store1) =>
      match nexts e1 store1 now m with
      | .panics => .panics
      | .ok (rest, refills, e2, store2) =>
        .ok ((id, err) :: rest, (if e.cur = e.max then 1 else 0) + refills, e2, store2)

/-- The `value` column currently stored for `k`, when a row exists. -/
def valueOf (store : Table) (k : Key) : Option Int :=
  (lookupKV store k).map Row.value

/-- Reply values of the beam protocol used by the handler: simple-string,
integer, and error replies. -/
inductive Reply where
  | simpleStrings (s : String)
  | integers (n : Int)
  | errors (s : String)
  deriving DecidableEq

/-- A call the handler makes into the `generator.Generator` registry. -/
inductive RegCall where
  | nextCall (k : Key)
  | currentCall (k : Key)
  deriving DecidableEq

/-- The registry as the handler sees it: the `Next` and `Current` methods
of the `generator.Generator` interface, each returning an id or an error. -/
structure EngineOps where
  next : Key → Except Err Int
  current : Key → Except Err Int

/-- Embedding of `strings.ToUpper` as used on the protocol verbs: uppercases
each character (the verbs at play are ASCII, where Go's rune-wise mapping
and this character-wise mapping agree). -/
def goToUpper (s : String) : String :=
  ⟨s.data.map Char.toUpper⟩

/-- Embedding of `DefaultHandler.Handle(req)`: a request is the verb
followed by its arguments.  The verb is matched after `strings.ToUpper`;
`PING` answers the fixed `"PONG"`; `INCR`/`GET` demand exactly one argument
(`len(req) != 2` in the source, i.e. one argument besides the verb) and
otherwise answer the `"invalid arguments"` error reply without calling the
registry; other verbs answer `"unsupported method."`.  The result carries
the reply, the always-nil transport error of `return resp, nil`, and the
registry calls made.  `req[0]` on an empty request indexes an empty slice,
a runtime panic, hence `none`. -/
def handle (ops : EngineOps) (req : List String) :
    Option ((Reply × Option Err) × List RegCall) :=
  match req with
  | [] => none
  | verb :: args =>
    let r : Reply × List RegCall :=
      if goToUpper verb = "PING" then (.simpleStrings "PONG", [])
      else if goToUpper verb = "INCR" then
        if args.length = 1 then
          let k := args.headD ""
          match ops.next k with
          | .error e => (.errors e, [.nextCall k])
          | .ok id => (.integers id, [.nextCall k])
        else (.errors "invalid arguments", [])
      else if goToUpper verb = "GET" then
        if args.length = 1 then
          let k := args.headD ""
          match ops.current k with
          | .error e => (.errors e, [.currentCall k])
          | .ok id => (.simpleStrings (toString id), [.currentCall k])
        else (.errors "invalid arguments", [])
      else (.errors "unsupported method.", [])
    some ((r.1, none), r.2)

/-- A store behaviour whose UPDATE statement fails (connection lost). -/
def updFail : Faults :=
  ⟨none, none, none, none, none, some "connection lost", none, none, none, none⟩

/-- A store behaviour whose SELECT ... FOR UPDATE fails with a non-`ErrNoRows`
error (connection lost). -/
def selFail : Faults :=
  ⟨none, some "connection lost", none, none, none, none, none, none, none, none⟩

/-- A store behaviour whose INSERT fails, as the duplicate-key race of two
first reservations for the same new key produces. -/
def insFail : Faults :=
  ⟨none, none, some "Error 1062: Duplicate entry", none, none, none, none, none, none, none⟩

/-- Per-key store behaviour in which only key "b" misbehaves (its SELECT
fails); all other keys are served normally. -/
def failOnB : Key → Faults := fun k => if k = "b" then selFail else Faults.noFaults

/-- A concrete registry for exercising the protocol adapter. -/
def sampleOps : EngineOps := ⟨fun _ => .ok 42, fun _ => .ok 7⟩

/-- A registry whose operations fail, for exercising the adapter's error
propagation. -/
def downOps : EngineOps :=
  ⟨fun _ => .error "key does not exist", fun _ => .error "key does not exist"⟩

theorem lookup_setKV_self {α : Type} (l : List (Key × α)) (k : Key) (a : α) :
    lookupKV (setKV l k a) k = some a := by
  induction l with
  | nil => simp [setKV, lookupKV]
  | cons h t ih =>
    obtain ⟨k0, a0⟩ := h
    by_cases hk : k0 = k
    · simp [setKV, hk, lookupKV]
    · simp [setKV, hk, lookupKV, ih]

theorem lookup_setKV_ne {α : Type} (l : List (Key × α)) (k key : Key) (a : α)
    (h : k ≠ key) : lookupKV (setKV l key a) k = lookupKV l k := by
  have hks : key ≠ k := fun he => h he.symm
  induction l with
  | nil => simp [setKV, lookupKV, hks]
  | cons hd t ih =>
    obtain ⟨k0, a0⟩ := hd
    by_cases hk : k0 = key
    · subst hk
      simp [setKV, lookupKV, hks]
    · simp [setKV, if_neg hk, lookupKV, ih]

/-- `increase` touches no row other than its own key. -/
theorem increase_frame (store : Table) (key : Key) (skip delta now : Int) (f : Faults)
    (r : Int × Int × Option Err) (store1 : Table)
    (h : increase store key skip delta now f = .ok (r, store1))
    (k : Key) (hk : k ≠ key) : lookupKV store1 k = lookupKV store k := by
  simp only [increase, finishTx] at h
  repeat' split at h
  all_goals
    first
    | exact GoResult.noConfusion h
    | (injection h with h1
       injection h1 with h2 h3
       subst h3
       first
       | rfl
       | exact lookup_setKV_ne _ _ _ _ hk)

/-- A successful `increase(skip)` call (nil error) reads the previous value
(0 when no row existed), writes back exactly `previous + skip` with the
current timestamp, and returns `(previous, previous + skip)`. -/
theorem increase_success_store (store : Table) (key : Key) (skip now : Int) (f : Faults)
    (c m : Int) (store1 : Table)
    (h : increase store key skip skip now f = .ok ((c, m, none), store1)) :
    store1 = setKV store key ⟨(valueOf store key).getD 0 + skip, now⟩
    ∧ c = (valueOf store key).getD 0 ∧ m = c + skip := by
  simp only [increase, finishTx] at h
  split at h
  · exact GoResult.noConfusion h
  · split at h
    · simp only [GoResult.ok.injEq, Prod.mk.injEq, txOutcomeErr] at h
      exact absurd h.1.2.2 (by simp)
    · split at h
      · -- no row: INSERT path
        rename_i hrow
        split at h
        · exact GoResult.noConfusion h
        · split at h
          · simp only [GoResult.ok.injEq, Prod.mk.injEq, txOutcomeErr] at h
            exact absurd h.1.2.2 (by simp)
          · split at h
            · simp only [GoResult.ok.injEq, Prod.mk.injEq, txOutcomeErr] at h
              obtain ⟨⟨hc, hm, -⟩, hst⟩ := h
              subst hc hm
              refine ⟨?_, ?_, by ring⟩
              · rw [← hst]
                simp [valueOf, hrow]
              · simp [valueOf, hrow]
            · simp only [GoResult.ok.injEq, Prod.mk.injEq, txOutcomeErr] at h
              exact absurd h.1.2.2 (by simp)
      · -- row found: UPDATE path
        rename_i row hrow
        split at h
        · simp only [GoResult.ok.injEq, Prod.mk.injEq, txOutcomeErr] at h
          exact absurd h.1.2.2 (by simp)
        · split at h
          · simp only [GoResult.ok.injEq, Prod.mk.injEq, txOutcomeErr] at h
            exact absurd h.1.2.2 (by simp)
          · split at h
            · simp only [GoResult.ok.injEq, Prod.mk.injEq, txOutcomeErr] at h
              obtain ⟨⟨hc, hm, -⟩, hst⟩ := h
              subst hc hm
              refine ⟨?_, ?_, rfl⟩
              · rw [← hst]
                simp [valueOf, hrow]
              · simp [valueOf, hrow]
            · simp only [GoResult.ok.injEq, Prod.mk.injEq, txOutcomeErr] at h
              exact absurd h.1.2.2 (by simp)

/-- Engine construction touches no row other than its own key. -/
theorem newEngine_frame (store : Table) (key : Key) (skip now : Int) (f : Faults)
    (r : Except Err Engine) (store1 : Table)
    (h : newMysqlRowBasedEngine store key skip now f = .ok (r, store1))
    (k : Key) (hk : k ≠ key) : lookupKV store1 k = lookupKV store k := by
  unfold newMysqlRowBasedEngine at h
  split at h
  · injection h with h1
    injection h1 with h2 h3
    subst h3
    rfl
  · cases hinc : increase store key skip skip now f with
    | panics => rw [hinc] at h; exact GoResult.noConfusion h
    | ok p =>
      obtain ⟨⟨c1, m1, err⟩, st1⟩ := p
      rw [hinc] at h
      cases err with
      | some e =>
        simp only [GoResult.ok.injEq, Prod.mk.injEq] at h
        rw [← h.2]
        exact increase_frame store key skip skip now f _ st1 hinc k hk
      | none =>
        simp only [GoResult.ok.injEq, Prod.mk.injEq] at h
        rw [← h.2]
        exact increase_frame store key skip skip now f _ st1 hinc k hk

/-- A successful engine construction leaves the key's row at exactly the
previous value (0 when absent) plus `skip`, freshly timestamped. -/
theorem newEngine_success_effect (store : Table) (key : Key) (skip now : Int) (f : Faults)
    (eng : Engine) (store1 : Table)
    (h : newMysqlRowBasedEngine store key skip now f = .ok (.ok eng, store1)) :
    lookupKV store1 key = some ⟨(valueOf store key).getD 0 + skip, now⟩ := by
  unfold newMysqlRowBasedEngine at h
  split at h
  · simp at h
  · cases hinc : increase store key skip skip now f with
    | panics => rw [hinc] at h; exact GoResult.noConfusion h
    | ok p =>
      obtain ⟨⟨c1, m1, err⟩, st1⟩ := p
      rw [hinc] at h
      cases err with
      | some e => simp at h
      | none =>
        simp only [GoResult.ok.injEq, Prod.mk.injEq] at h
        rw [← h.2]
        rw [(increase_success_store store key skip now f c1 m1 st1 hinc).1]
        exact lookup_setKV_self _ _ _

/-- The `EnableKeys` loop touches no row of a key outside its input list. -/
theorem enableLoop_frame (g : Generator) (keys : List Key) (now : Int)
    (f : Key → Faults) :
    ∀ (store : Table) (data : List (Key × Engine)) (res : Except Err (List (Key × Engine)))
      (store1 : Table),
      enableLoop g store keys now f data = .ok (res, store1) →
      ∀ k, k ∉ keys → lookupKV store1 k = lookupKV store k := by
  induction keys with
  | nil =>
    intro store data res store1 h k _
    unfold enableLoop at h
    injection h with h1
    injection h1 with h2 h3
    subst h3
    rfl
  | cons k0 ks ih =>
    intro store data res store1 h k hk
    unfold enableLoop at h
    cases hc : newMysqlRowBasedEngine store k0 g.skip now (f k0) with
    | panics => rw [hc] at h; exact GoResult.noConfusion h
    | ok p =>
      obtain ⟨r0, st0⟩ := p
      rw [hc] at h
      have hkk0 : k ≠ k0 := fun he => hk (he ▸ List.mem_cons_self k0 ks)
      have hfr0 : lookupKV st0 k = lookupKV store k :=
        newEngine_frame store k0 g.skip now (f k0) r0 st0 hc k hkk0
      cases r0 with
      | error e =>
        injection h with h1
        injection h1 with h2 h3
        subst h3
        exact hfr0
      | ok eng =>
        have hks : k ∉ ks := fun hm => hk (List.mem_cons_of_mem k0 hm)
        rw [ih st0 (setKV data k0 eng) res store1 h k hks]
        exact hfr0

/-- When the `EnableKeys` loop succeeds over a duplicate-free key list, the
row of every key in the list ends exactly one reservation (`g.skip`) above
its starting value (0 when the row did not exist). -/
theorem enableLoop_success_values (g : Generator) (keys : List Key) (now : Int)
    (f : Key → Faults) :
    ∀ (store : Table) (data dataRes : List (Key × Engine)) (store1 : Table),
      keys.Nodup →
      enableLoop g store keys now f data = .ok (.ok dataRes, store1) →
      ∀ j ∈ keys, valueOf store1 j = some ((valueOf store j).getD 0 + g.skip) := by
  induction keys with
  | nil =>
    intro store data dataRes store1 _ _ j hj
    exact absurd hj (List.not_mem_nil j)
  | cons k0 ks ih =>
    intro store data dataRes store1 hnd h j hj
    unfold enableLoop at h
    cases hc : newMysqlRowBasedEngine store k0 g.skip now (f k0) with
    | panics => rw [hc] at h; exact GoResult.noConfusion h
    | ok p =>
      obtain ⟨r0, st0⟩ := p
      rw [hc] at h
      cases r0 with
      | error e => simp at h
      | ok eng =>
        have hk0ks : k0 ∉ ks := (List.nodup_cons.mp hnd).1
        have hndks : ks.Nodup := (List.nodup_cons.mp hnd).2
        rcases List.mem_cons.mp hj with rfl | hjks
        · have h1 : lookupKV st0 j = some ⟨(valueOf store j).getD 0 + g.skip, now⟩ :=
            newEngine_success_effect store j g.skip now (f j) eng st0 hc
          have h2 : lookupKV store1 j = lookupKV st0 j :=
            enableLoop_frame g ks now f st0 (setKV data j eng) (.ok dataRes) store1 h j hk0ks
          simp [valueOf, h2, h1]
        · have hjk0 : j ≠ k0 := fun he => hk0ks (he ▸ hjks)
          have hfr0 : lookupKV st0 j = lookupKV store j :=
            newEngine_frame store k0 g.skip now (f k0) (.ok eng) st0 hc j hjk0
          have hrec := ih st0 (setKV data k0 eng) dataRes store1 hndks h j hjks
          rw [hrec]
          simp [valueOf, hfr0]

/-- A successful prefix of the `EnableKeys` loop composes with the rest of
the key list. -/
theorem enableLoop_append (g : Generator) (pre : List Key) (now : Int)
    (f : Key → Faults) :
    ∀ (rest : List Key) (store : Table) (data dataRes : List (Key × Engine))
      (store0 : Table),
      enableLoop g store pre now f data = .ok (.ok dataRes, store0) →
      enableLoop g store (pre ++ rest) now f data = enableLoop g store0 rest now f dataRes := by
  induction pre with
  | nil =>
    intro rest store data dataRes store0 h
    unfold enableLoop at h
    injection h with h1
    injection h1 with h2 h3
    injection h2 with h4
    subst h3 h4
    rfl
  | cons k0 ks ih =>
    intro rest store data dataRes store0 h
    unfold enableLoop at h
    cases hc : newMysqlRowBasedEngine store k0 g.skip now (f k0) with
    | panics => rw [hc] at h; exact GoResult.noConfusion h
    | ok p =>
      obtain ⟨r0, st0⟩ := p
      rw [hc] at h
      cases r0 with
      | error e => simp at h
      | ok eng =>
        have hl : enableLoop g store ((k0 :: ks) ++ rest) now f data
            = enableLoop g st0 (ks ++ rest) now f (setKV data k0 eng) := by
          show (match newMysqlRowBasedEngine store k0 g.skip now (f k0) with
                | GoResult.panics => GoResult.panics
                | GoResult.ok (Except.error e, store1) => GoResult.ok (.error e, store1)
                | GoResult.ok (Except.ok eng1, store1) =>
                    enableLoop g store1 (ks ++ rest) now f (setKV data k0 eng1))
              = enableLoop g st0 (ks ++ rest) now f (setKV data k0 eng)
          rw [hc]
        rw [hl]
        exact ih rest st0 (setKV data k0 eng) dataRes store0 h

/-- Claim C1 fails on the code.  With the segment exhausted
(`cur = max = 100`, `step = 100`) and the refill's UPDATE failing, `next()`
returns the error, but `m.cur, m.max, err = m.increase(m.skip)` has already
overwritten the fields with the partial named returns `(100, 200)` before
`err` is checked: `max` moves from 100 to 200 although nothing was
reserved, the engine is not left unchanged, and since `cur ≠ max` afterward
the following `next()` call serves ids without retrying the refill. -/
theorem next_refill_failure_mutates_engine :
    Engine.next ⟨"order", 100, 100, 100⟩ [("order", ⟨100, 5⟩)] 7 updFail
      = .ok ((0, some "connection lost"), ⟨"order", 100, 200, 100⟩, [("order", ⟨100, 5⟩)])
    ∧ (⟨"order", 100, 200, 100⟩ : Engine) ≠ (⟨"order", 100, 100, 100⟩ : Engine)
    ∧ ¬ ((⟨"order", 100, 200, 100⟩ : Engine).cur = (⟨"order", 100, 200, 100⟩ : Engine).max) := by
  decide

/-- Claim C2 fails on the code.  One successful `increase` run issues its
SELECT ... FOR UPDATE and its UPDATE through the pool handle
`m.generator.db` — outside the transaction `tx` it opened — so no statement
at all runs inside the transaction and the row lock does not span the
read-modify-write. -/
theorem increase_statements_bypass_transaction :
    increaseStmts [("order", ⟨100, 5⟩)] "order" Faults.noFaults
      = [(.dbHandle, .selectForUpdate "order"), (.dbHandle, .updateStmt "order")]
    ∧ (DbHandle.txHandle, Stmt.selectForUpdate "order")
        ∉ increaseStmts [("order", ⟨100, 5⟩)] "order" Faults.noFaults
    ∧ (DbHandle.txHandle, Stmt.updateStmt "order")
        ∉ increaseStmts [("order", ⟨100, 5⟩)] "order" Faults.noFaults := by
  decide

/-- Claim C3 fails on the code.  On the no-row path, when the INSERT fails
(exactly the duplicate-key race the spec names), the code executes
`cnt, err = res.RowsAffected()` without having checked the `Exec` error, so
`res` is a nil `sql.Result` and the call panics instead of rolling back and
surfacing the error. -/
theorem increase_insert_failure_panics :
    increase [] "order" 100 100 7 insFail = .panics := by
  decide

/-- Claim C4 fails on the code.  After a fresh segment `[0, 100]` has served
ids 1..100, a refill whose SELECT fails makes `next()` overwrite `cur`/`max`
with the zero-valued partial returns `(0, 0)`: the previously returned id
100 now exceeds the engine's `max = 0`, violating the segment-bound
invariant (its `cur ≤ max` and `max − cur ≤ step` parts do survive this
trace, the returned-ids-bounded-by-`max` part does not). -/
theorem failed_refill_breaks_segment_invariant :
    nexts ⟨"order", 100, 100, 0⟩ [("order", ⟨100, 10⟩)] 20 100
      = .ok ((List.range 100).map (fun n => (Int.ofNat n + 1, (none : Option Err))), 0,
          ⟨"order", 100, 100, 100⟩, [("order", ⟨100, 10⟩)])
    ∧ ((100 : Int), (none : Option Err))
        ∈ (List.range 100).map (fun n => (Int.ofNat n + 1, (none : Option Err)))
    ∧ Engine.next ⟨"order", 100, 100, 100⟩ [("order", ⟨100, 10⟩)] 30 selFail
        = .ok ((0, some "connection lost"), ⟨"order", 100, 0, 0⟩, [("order", ⟨100, 10⟩)])
    ∧ ¬ ((100 : Int) ≤ (⟨"order", 100, 0, 0⟩ : Engine).max) := by
  decide

/-- Claim C5: a fault-free `increase(skip)` call with no existing row
returns `(previousMax, newMax) = (0, skip)` and creates the row with
`value = skip` and the current timestamp; with an existing row of value `v`
it returns `(v, v + skip)` and updates the row's value and last-modified
timestamp. -/
theorem increase_reserve_contract (store : Table) (key : Key) (skip now : Int)
    (hskip : 0 < skip) :
    (lookupKV store key = none →
      increase store key skip skip now Faults.noFaults
        = .ok ((0, skip, none), setKV store key ⟨skip, now⟩)
      ∧ lookupKV (setKV store key (⟨skip, now⟩ : Row)) key = some ⟨skip, now⟩)
    ∧ (∀ v lm, lookupKV store key = some ⟨v, lm⟩ →
      increase store key skip skip now Faults.noFaults
        = .ok ((v, v + skip, none), setKV store key ⟨v + skip, now⟩)
      ∧ lookupKV (setKV store key (⟨v + skip, now⟩ : Row)) key = some ⟨v + skip, now⟩) := by
  constructor
  · intro hnone
    refine ⟨?_, lookup_setKV_self _ _ _⟩
    simp [increase, Faults.noFaults, hnone, finishTx, txOutcomeErr]
  · intro v lm hsome
    refine ⟨?_, lookup_setKV_self _ _ _⟩
    simp [increase, Faults.noFaults, hsome, finishTx, txOutcomeErr]

theorem increase_reserve_contract_witness :
    (increase [] "order" 100 100 20 Faults.noFaults
        = .ok ((0, 100, none), [("order", ⟨100, 20⟩)])
      ∧ lookupKV [("order", (⟨100, 20⟩ : Row))] "order" = some ⟨100, 20⟩)
    ∧ (increase [("order", ⟨100, 20⟩)] "order" 100 100 30 Faults.noFaults
        = .ok ((100, 200, none), [("order", ⟨200, 30⟩)])
      ∧ lookupKV [("order", (⟨200, 30⟩ : Row))] "order" = some ⟨200, 30⟩) :=
  ⟨(increase_reserve_contract [] "order" 100 20 (by decide)).1 rfl,
    (increase_reserve_contract [("order", ⟨100, 20⟩)] "order" 100 30 (by decide)).2
      100 20 rfl⟩

/-- Claim C6: for a freshly registered key with `step = 100` against a
fault-free store, construction eagerly reserves `[0, 100]`; the first 100
`next()` calls return 1..100 with zero refills and the store row untouched
at 100; over 101 calls exactly one refill happens, the calls return 1..101
(so call 101 returns 101), and the row advances to 200. -/
theorem fresh_key_step100_scenario :
    newMysqlRowBasedEngine [] "order" 100 10 Faults.noFaults
      = .ok (.ok ⟨"order", 100, 100, 0⟩, [("order", ⟨100, 10⟩)])
    ∧ nexts ⟨"order", 100, 100, 0⟩ [("order", ⟨100, 10⟩)] 20 100
        = .ok ((List.range 100).map (fun n => (Int.ofNat n + 1, (none : Option Err))), 0,
            ⟨"order", 100, 100, 100⟩, [("order", ⟨100, 10⟩)])
    ∧ nexts ⟨"order", 100, 100, 0⟩ [("order", ⟨100, 10⟩)] 20 101
        = .ok ((List.range 101).map (fun n => (Int.ofNat n + 1, (none : Option Err))), 1,
            ⟨"order", 100, 200, 101⟩, [("order", ⟨200, 20⟩)]) := by
  decide

/-- Claim C7: when `EnableKeys` fails (some key's engine construction
returned an error), the registry value is returned unchanged — the previous
key-to-engine mapping stays active; when the construction loop succeeds,
the whole mapping is replaced by the freshly built one. -/
theorem enableKeys_all_or_nothing (g : Generator) (store : Table) (keys : List Key)
    (now : Int) (f : Key → Faults) :
    (∀ e g1 store1,
      Generator.enableKeys g store keys now f = .ok ((g1, some e), store1) → g1 = g)
    ∧ (∀ data store1,
      enableLoop g store keys now f [] = .ok (.ok data, store1) →
      Generator.enableKeys g store keys now f = .ok ((⟨data, g.skip⟩, none), store1)) := by
  constructor
  · intro e g1 store1 h
    unfold Generator.enableKeys at h
    cases hl : enableLoop g store keys now f [] with
    | panics => rw [hl] at h; exact GoResult.noConfusion h
    | ok p =>
      obtain ⟨res, st⟩ := p
      rw [hl] at h
      cases res with
      | error e0 =>
        simp only [GoResult.ok.injEq, Prod.mk.injEq] at h
        exact h.1.1.symm
      | ok data => simp at h
  · intro data store1 h
    unfold Generator.enableKeys
    rw [h]

theorem enableKeys_all_or_nothing_witness :
    (⟨[("old", ⟨"old", 100, 100, 0⟩)], 100⟩ : Generator)
        = (⟨[("old", ⟨"old", 100, 100, 0⟩)], 100⟩ : Generator)
    ∧ Generator.enableKeys ⟨[("old", ⟨"old", 100, 100, 0⟩)], 100⟩ [] ["a"] 10
        (fun _ => Faults.noFaults)
        = .ok ((⟨[("a", ⟨"a", 100, 100, 0⟩)], 100⟩, none), [("a", ⟨100, 10⟩)]) :=
  ⟨(enableKeys_all_or_nothing ⟨[("old", ⟨"old", 100, 100, 0⟩)], 100⟩ [] ["a", "b"] 10
      failOnB).1 "connection lost" ⟨[("old", ⟨"old", 100, 100, 0⟩)], 100⟩
      [("a", ⟨100, 10⟩)] (by decide),
    (enableKeys_all_or_nothing ⟨[("old", ⟨"old", 100, 100, 0⟩)], 100⟩ [] ["a"] 10
      (fun _ => Faults.noFaults)).2 [("a", ⟨"a", 100, 100, 0⟩)] [("a", ⟨100, 10⟩)]
      (by decide)⟩

/-- Claim C8: the adapter dispatches on the verb after `ToUpper` — `PING`
answers the fixed `"PONG"`; `INCR`/`GET` with exactly one argument answer
the allocated id as an integer reply resp. the current id as a decimal
string reply (or the underlying error as an error reply); `INCR`/`GET`
with any other argument count answer `"invalid arguments"` without calling
the registry; every other verb answers `"unsupported method."`. -/
theorem handle_verb_dispatch (ops : EngineOps) (verb : String) (args : List String) :
    (goToUpper verb = "PING" →
      handle ops (verb :: args) = some ((.simpleStrings "PONG", none), []))
    ∧ (goToUpper verb = "INCR" → args.length ≠ 1 →
      handle ops (verb :: args) = some ((.errors "invalid arguments", none), []))
    ∧ (goToUpper verb = "GET" → args.length ≠ 1 →
      handle ops (verb :: args) = some ((.errors "invalid arguments", none), []))
    ∧ (∀ k, goToUpper verb = "INCR" → args = [k] →
      handle ops (verb :: args)
        = some (((match ops.next k with
                  | .ok id => Reply.integers id
                  | .error e => Reply.errors e), none), [.nextCall k]))
    ∧ (∀ k, goToUpper verb = "GET" → args = [k] →
      handle ops (verb :: args)
        = some (((match ops.current k with
                  | .ok id => Reply.simpleStrings (toString id)
                  | .error e => Reply.errors e), none), [.currentCall k]))
    ∧ (goToUpper verb ≠ "PING" → goToUpper verb ≠ "INCR" → goToUpper verb ≠ "GET" →
      handle ops (verb :: args) = some ((.errors "unsupported method.", none), [])) := by
  refine ⟨?_, ?_, ?_, ?_, ?_, ?_⟩
  · intro h
    simp [handle, h]
  · intro h hlen
    simp [handle, h, hlen]
  · intro h hlen
    simp [handle, h, hlen]
  · intro k h hargs
    subst hargs
    cases hnk : ops.next k with
    | error e => simp [handle, h, hnk]
    | ok id => simp [handle, h, hnk]
  · intro k h hargs
    subst hargs
    cases hnk : ops.current k with
    | error e => simp [handle, h, hnk]
    | ok id => simp [handle, h, hnk]
  · intro h1 h2 h3
    simp [handle, h1, h2, h3]

theorem handle_verb_dispatch_witness :
    handle sampleOps ["PiNg", "x"] = some ((.simpleStrings "PONG", none), [])
    ∧ handle sampleOps ["IncR", "a", "b"] = some ((.errors "invalid arguments", none), [])
    ∧ handle sampleOps ["get", "k"] = some ((.simpleStrings "7", none), [.currentCall "k"])
    ∧ handle sampleOps ["INCR", "k"] = some ((.integers 42, none), [.nextCall "k"])
    ∧ handle sampleOps ["FOO"] = some ((.errors "unsupported method.", none), []) := by
  refine ⟨(handle_verb_dispatch sampleOps "PiNg" ["x"]).1 (by decide),
    (handle_verb_dispatch sampleOps "IncR" ["a", "b"]).2.1 (by decide) (by decide),
    ?_, ?_, (handle_verb_dispatch sampleOps "FOO" []).2.2.2.2.2 (by decide) (by decide)
      (by decide)⟩
  · exact (handle_verb_dispatch sampleOps "get" ["k"]).2.2.2.2.1 "k" (by decide) rfl
  · exact (handle_verb_dispatch sampleOps "INCR" ["k"]).2.2.2.1 "k" (by decide) rfl

/-- Claim C9's empty-request case fails on the code: `string(req[0])`
indexes an empty slice, a runtime panic. -/
theorem handle_empty_request_panics : handle sampleOps [] = none := by
  decide

/-- Claim C9 as amended to nonempty requests: whenever a verb is present the
adapter returns a reply with a nil transport-level error for every argument
list and every registry behaviour, and a failing registry operation is
encoded as a protocol-level error reply. -/
theorem handle_nonempty_reply (ops : EngineOps) (verb : String) (args : List String) :
    (∃ rep calls, handle ops (verb :: args) = some ((rep, none), calls))
    ∧ (∀ k e, goToUpper verb = "INCR" → args = [k] → ops.next k = .error e →
        handle ops (verb :: args) = some ((.errors e, none), [.nextCall k]))
    ∧ (∀ k e, goToUpper verb = "GET" → args = [k] → ops.current k = .error e →
        handle ops (verb :: args) = some ((.errors e, none), [.currentCall k])) := by
  refine ⟨⟨_, _, rfl⟩, ?_, ?_⟩
  · intro k e h hargs hop
    subst hargs
    simp [handle, h, hop]
  · intro k e h hargs hop
    subst hargs
    simp [handle, h, hop]

theorem handle_nonempty_reply_witness :
    handle downOps ["INCR", "k"]
      = some ((.errors "key does not exist", none), [.nextCall "k"])
    ∧ handle downOps ["GET", "k"]
      = some ((.errors "key does not exist", none), [.currentCall "k"]) :=
  ⟨(handle_nonempty_reply downOps "INCR" ["k"]).2.1 "k" "key does not exist"
      (by decide) rfl rfl,
    (handle_nonempty_reply downOps "GET" ["k"]).2.2 "k" "key does not exist"
      (by decide) rfl rfl⟩

/-- Claim C10: when `EnableKeys` fails at key `k` after a duplicate-free
prefix `pre` of keys was constructed successfully, the call returns the
error with the mapping unchanged, yet the store row of every key in `pre`
has been created or advanced by exactly one reservation of `g.skip`
identifiers — identifiers that are forfeited since no engine was
installed. -/
theorem enableKeys_failure_prior_refills_persist
    (g : Generator) (store : Table) (pre : List Key) (k : Key) (post : List Key)
    (now : Int) (f : Key → Faults) (e : Err) (data0 : List (Key × Engine))
    (store0 store1 : Table)
    (hnd : pre.Nodup) (hk : k ∉ pre)
    (hpre : enableLoop g store pre now f [] = .ok (.ok data0, store0))
    (hfail : newMysqlRowBasedEngine store0 k g.skip now (f k) = .ok (.error e, store1)) :
    Generator.enableKeys g store (pre ++ k :: post) now f = .ok ((g, some e), store1)
    ∧ ∀ j ∈ pre, valueOf store1 j = some ((valueOf store j).getD 0 + g.skip) := by
  have hall : enableLoop g store (pre ++ k :: post) now f [] = .ok (.error e, store1) := by
    rw [enableLoop_append g pre now f (k :: post) store [] data0 store0 hpre]
    show (match newMysqlRowBasedEngine store0 k g.skip now (f k) with
          | GoResult.panics => GoResult.panics
          | GoResult.ok (Except.error e1, st) => GoResult.ok (Except.error e1, st)
          | GoResult.ok (Except.ok eng, st) => enableLoop g st post now f (setKV data0 k eng))
        = GoResult.ok (Except.error e, store1)
    rw [hfail]
  refine ⟨?_, ?_⟩
  · unfold Generator.enableKeys
    rw [hall]
  · intro j hj
    have hjk : j ≠ k := fun he => hk (he ▸ hj)
    have hv : valueOf store0 j = some ((valueOf store j).getD 0 + g.skip) :=
      enableLoop_success_values g pre now f store [] data0 store0 hnd hpre j hj
    have hfr : lookupKV store1 j = lookupKV store0 j :=
      newEngine_frame store0 k g.skip now (f k) (.error e) store1 hfail j hjk
    calc valueOf store1 j = valueOf store0 j := by simp [valueOf, hfr]
      _ = some ((valueOf store j).getD 0 + g.skip) := hv

theorem enableKeys_failure_prior_refills_persist_witness :
    Generator.enableKeys ⟨[], 100⟩ [] ["a", "b"] 10 failOnB
        = .ok ((⟨[], 100⟩, some "connection lost"), [("a", ⟨100, 10⟩)])
    ∧ ∀ j ∈ ["a"], valueOf [("a", ⟨100, 10⟩)] j
        = some ((valueOf ([] : Table) j).getD 0
            + (⟨([] : List (Key × Engine)), 100⟩ : Generator).skip) :=
  enableKeys_failure_prior_refills_persist ⟨[], 100⟩ [] ["a"] "b" [] 10 failOnB
    "connection lost" [("a", ⟨"a", 100, 100, 0⟩)] [("a", ⟨100, 10⟩)] [("a", ⟨100, 10⟩)]
    (by decide) (by decide) (by decide) (by decide)

end Genid
